import Mathlib

/-!
Shallow embedding of the Omnify fitness-class booking service
(`src/database.py`, `src/auth/routes.py`).

Conventions of the embedding:
* Instants are minutes since an arbitrary epoch, in UTC (`Int`).  The code
  stores `DateTime` values produced by `ist_str_to_utc`, which have minute
  granularity (format `"%Y-%m-%d %H:%M"`), so minutes lose nothing.
* A Python timezone-aware datetime is a pair of the underlying UTC instant
  and the display offset of its `tzinfo` (`AwareDT`); `astimezone` keeps the
  instant and recomputes the offset, exactly as in CPython.
* The `pytz` zone database is abstracted as a lookup `TzDb : String → Option
  TzInfo`; `pytz.timezone name` raising `UnknownTimeZoneError` corresponds to
  the lookup returning `none`.
* The SQLAlchemy store is four lists plus autoincrement counters; `query.get`
  and `filter_by(...).first()` are `List.find?`, relationship collections are
  `List.filter`, and `db.session.commit()` of a new `Booking` fails exactly
  when the `uq_client_session` unique constraint fires (a row with the same
  `(client_id, session_id)` pair already exists), which is the rollback path
  of `book_session`.
* An uncaught Python exception (e.g. `AttributeError` on `None`) is the
  `crash` constructor of the handler result types.
-/

/-- A timezone: its UTC offset in minutes, as a function of the UTC instant
(pytz offsets depend on the instant because of DST). -/
structure TzInfo where
  offsetAt : Int → Int

/-- A timezone-aware datetime: the UTC instant it denotes plus the display
offset of its attached zone.  Its wall-clock reading is `instant + offset`. -/
structure AwareDT where
  instant : Int
  offset : Int
  deriving DecidableEq, Repr

/-- Wall-clock reading (in minutes) of an aware datetime, what `strftime`
formats. -/
def AwareDT.wall (a : AwareDT) : Int := a.instant + a.offset

/-- `datetime.astimezone(tz)`: same instant, offset recomputed for the new
zone. -/
def astimezone (a : AwareDT) (z : TzInfo) : AwareDT :=
  ⟨a.instant, z.offsetAt a.instant⟩

/-- `pytz.UTC`. -/
def utcTz : TzInfo := ⟨fun _ => 0⟩

/-- `pytz.timezone("Asia/Kolkata")`: fixed +05:30 = 330 minutes (no DST). -/
def istTz : TzInfo := ⟨fun _ => 330⟩

/-- A stored `start_time_utc` / `end_time_utc` column value: an aware UTC
datetime. -/
def utcStored (t : Int) : AwareDT := ⟨t, 0⟩

/-- `ist_str_to_utc` (`database.py`): parse an IST wall-clock string,
`localize` it in Asia/Kolkata and convert to UTC.  At minute granularity the
parsed string is the wall-clock minute count `w`; localizing attaches offset
330, so the UTC instant is `w - 330`. -/
def ist_str_to_utc (w : Int) : Int := w - 330

/-- The zone database: resolves a zone name, `none` for an unrecognized
name (`pytz.UnknownTimeZoneError`). -/
def TzDb : Type := String → Option TzInfo

/-- A concrete zone database for closed-form evaluation: it recognizes only
`UTC` and `Asia/Kolkata`. -/
def sampleTzdb : TzDb := fun name =>
  if name = "UTC" then some utcTz
  else if name = "Asia/Kolkata" then some istTz
  else none

-- ------------------------------------------------------------------
-- Models (`database.py`)
-- ------------------------------------------------------------------

/-- Row of the `clients` table. -/
structure Client where
  id : Int
  name : String
  email : String
  deriving DecidableEq, Repr

/-- Row of the `classes` table. -/
structure FitnessClass where
  id : Int
  name : String
  description : String
  deriving DecidableEq, Repr

/-- Row of the `sessions` table; times are stored in UTC. -/
structure Session where
  id : Int
  class_id : Int
  start_time_utc : Int
  end_time_utc : Int
  capacity : Int
  deriving DecidableEq, Repr

/-- Row of the `bookings` table; `uq_client_session` makes
`(client_id, session_id)` unique. -/
structure Booking where
  id : Int
  client_id : Int
  session_id : Int
  deriving DecidableEq, Repr

/-- The whole database, with autoincrement counters for primary keys. -/
structure Store where
  clients : List Client
  classes : List FitnessClass
  sessions : List Session
  bookings : List Booking
  nextClientId : Int
  nextClassId : Int
  nextSessionId : Int
  nextBookingId : Int
  deriving DecidableEq, Repr

/-- A freshly created database (`db.create_all()` before seeding). -/
def emptyStore : Store := ⟨[], [], [], [], 1, 1, 1, 1⟩

/-- `Session.query.get(sid)`. -/
def findSessionById (st : Store) (sid : Int) : Option Session :=
  st.sessions.find? (fun s => s.id = sid)

/-- `Client.query.filter_by(email=email).first()`. -/
def findClientByEmail (st : Store) (email : String) : Option Client :=
  st.clients.find? (fun c => c.email = email)

/-- `Session.booked_count`: size of the `bookings` relationship, the stored
bookings whose `session_id` is this session's id. -/
def booked_count (st : Store) (sid : Int) : Nat :=
  (st.bookings.filter (fun b => b.session_id = sid)).length

/-- `Session.spots_left`: `capacity - booked_count`. -/
def spots_left (st : Store) (s : Session) : Int :=
  s.capacity - (booked_count st s.id : Int)

-- ------------------------------------------------------------------
-- POST /book (`auth/routes.py` book_session)
-- ------------------------------------------------------------------

/-- Python truthiness of an optional string field of the JSON body:
absent and `""` are falsy. -/
def truthyS : Option String → Bool
  | none => false
  | some s => s ≠ ""

/-- Python truthiness of the optional integer `session_id` field:
absent and `0` are falsy. -/
def truthyI : Option Int → Bool
  | none => false
  | some n => n ≠ 0

/-- Outcome of the `/book` handler. -/
inductive BookResult where
  /-- 400 with an `{"error": ...}` body (missing fields). -/
  | badRequest (error : String)
  /-- 400 with a `{"message": ...}` body. -/
  | failure (message : String)
  /-- 200 with a `{"message": ...}` body. -/
  | success (message : String)
  /-- An uncaught exception escaped the handler (no structured response). -/
  | crash
  deriving DecidableEq, Repr

/-- HTTP status of a `/book` outcome, `none` when the handler crashed. -/
def BookResult.statusCode : BookResult → Option Nat
  | .badRequest _ => some 400
  | .failure _ => some 400
  | .success _ => some 200
  | .crash => none

/-- `book_session` (`auth/routes.py` lines 38-64): field check, session
lookup and capacity check, client lookup (dereferenced without a `None`
check), then insert-and-commit with rollback on the unique-constraint
failure.  Returns the response together with the resulting store. -/
def book_session (st : Store) (client_name client_email : Option String)
    (session_id : Option Int) : BookResult × Store :=
  if ¬ (truthyS client_name ∧ truthyS client_email ∧ truthyI session_id) then
    (.badRequest "client_name and client_email and session_id required", st)
  else
    match findSessionById st (session_id.getD 0) with
    | none => (.failure "Booking failed – session full or already booked", st)
    | some s =>
      if spots_left st s ≤ 0 then
        (.failure "Booking failed – session full or already booked", st)
      else
        match findClientByEmail st (client_email.getD "") with
        | none => (.crash, st)  -- client.id on None: AttributeError, uncaught
        | some c =>
          if st.bookings.any
              (fun b => b.client_id = c.id ∧ b.session_id = session_id.getD 0) then
            -- uq_client_session fires; commit raises, rollback
            (.failure "Booking failed – session full or already booked", st)
          else
            (.success "Booking successful",
             { st with
                bookings := st.bookings ++
                  [⟨st.nextBookingId, c.id, session_id.getD 0⟩],
                nextBookingId := st.nextBookingId + 1 })

/-- One `/book` request body. -/
structure BookReq where
  client_name : Option String
  client_email : Option String
  session_id : Option Int
  deriving Repr

/-- Run a sequence of `/book` requests, threading the store. -/
def runBooks (st : Store) : List BookReq → Store
  | [] => st
  | r :: rs => runBooks (book_session st r.client_name r.client_email r.session_id).2 rs

-- ------------------------------------------------------------------
-- GET /classes (`auth/routes.py` list_classes)
-- ------------------------------------------------------------------

/-- `Session.start_time_local(tz_name)`: `astimezone(pytz.timezone(tz_name))`,
raising (modelled as `Except.error` carrying the bad name) when the zone is
unrecognized. -/
def start_time_local (tzdb : TzDb) (s : Session) (tz : String) :
    Except String AwareDT :=
  match tzdb tz with
  | none => .error tz
  | some z => .ok (astimezone (utcStored s.start_time_utc) z)

/-- `Session.end_time_local(tz_name)`, same shape. -/
def end_time_local (tzdb : TzDb) (s : Session) (tz : String) :
    Except String AwareDT :=
  match tzdb tz with
  | none => .error tz
  | some z => .ok (astimezone (utcStored s.end_time_utc) z)

/-- One entry of the `/classes` listing; the two times are the local
wall-clock minutes that `strftime("%Y-%m-%d %H:%M")` renders. -/
structure ClassRow where
  id : Int
  className : String
  description : String
  start_time : Int
  end_time : Int
  capacity : Int
  spotsLeft : Int
  deriving DecidableEq, Repr

/-- The dict appended for one `(fitness_class, session)` pair, built inside
the `try`: a timezone failure aborts the whole listing. -/
def classRowOf (tzdb : TzDb) (st : Store) (tz : String) (c : FitnessClass)
    (s : Session) : Except String ClassRow := do
  let stt ← start_time_local tzdb s tz
  let ent ← end_time_local tzdb s tz
  pure ⟨c.id, c.name, c.description, stt.wall, ent.wall, s.capacity,
        spots_left st s⟩

/-- Inner loop of `list_classes`: the sessions of one class. -/
def classRowsOfSessions (tzdb : TzDb) (st : Store) (tz : String)
    (c : FitnessClass) : List Session → Except String (List ClassRow)
  | [] => .ok []
  | s :: rest => do
    let r ← classRowOf tzdb st tz c s
    let rs ← classRowsOfSessions tzdb st tz c rest
    pure (r :: rs)

/-- Outer loop of `list_classes`: all classes, each with its `sessions`
relationship (`class_id` filter). -/
def classRowsOfClasses (tzdb : TzDb) (st : Store) (tz : String) :
    List FitnessClass → Except String (List ClassRow)
  | [] => .ok []
  | c :: rest => do
    let rs ← classRowsOfSessions tzdb st tz c
      (st.sessions.filter (fun s => s.class_id = c.id))
    let more ← classRowsOfClasses tzdb st tz rest
    pure (rs ++ more)

/-- Outcome of the `/classes` handler. -/
inductive ListClassesResult where
  /-- 200 with the JSON array. -/
  | ok (rows : List ClassRow)
  /-- 400 with `{"error": ...}`. -/
  | invalidTz (error : String)
  deriving DecidableEq, Repr

/-- HTTP status of a `/classes` outcome. -/
def ListClassesResult.statusCode : ListClassesResult → Nat
  | .ok _ => 200
  | .invalidTz _ => 400

/-- `list_classes` (`auth/routes.py` lines 12-31): build all rows inside one
`try`; `pytz.UnknownTimeZoneError` anywhere turns the whole request into a
400 naming the requested zone. -/
def list_classes (tzdb : TzDb) (st : Store) (tz : String) : ListClassesResult :=
  match classRowsOfClasses tzdb st tz st.classes with
  | .error _ => .invalidTz ("Invalid timezone: " ++ tz)
  | .ok rows => .ok rows

-- ------------------------------------------------------------------
-- GET /bookings (`auth/routes.py` get_bookings)
-- ------------------------------------------------------------------

/-- One entry of the `/bookings` listing. -/
structure BookingRow where
  session_id : Int
  className : String
  start_time : Int
  end_time : Int
  deriving DecidableEq, Repr

/-- What can abort the row loop of `get_bookings`: an unknown timezone
(caught) or an `AttributeError` from dereferencing a missing relationship
(uncaught). -/
inductive GbErr where
  | unknownTz
  | attrError
  deriving DecidableEq, Repr

/-- The dict appended for one booking of the client: `booking.session` and
`session.fitness_class` are looked up by foreign key and dereferenced
without a `None` check, then the times are localized. -/
def bookingRowOf (tzdb : TzDb) (st : Store) (tz : String) (b : Booking) :
    Except GbErr BookingRow :=
  match st.sessions.find? (fun s => s.id = b.session_id) with
  | none => .error .attrError
  | some s =>
    match st.classes.find? (fun c => c.id = s.class_id) with
    | none => .error .attrError
    | some fc =>
      match tzdb tz with
      | none => .error .unknownTz
      | some z =>
        .ok ⟨s.id, fc.name,
             (astimezone (utcStored s.start_time_utc) z).wall,
             (astimezone (utcStored s.end_time_utc) z).wall⟩

/-- The row loop of `get_bookings` over the client's bookings. -/
def bookingRows (tzdb : TzDb) (st : Store) (tz : String) :
    List Booking → Except GbErr (List BookingRow)
  | [] => .ok []
  | b :: rest => do
    let r ← bookingRowOf tzdb st tz b
    let rs ← bookingRows tzdb st tz rest
    pure (r :: rs)

/-- Outcome of the `/bookings` handler. -/
inductive GetBookingsResult where
  /-- 400 with `{"error": ...}` (missing email or invalid timezone). -/
  | badRequest (error : String)
  /-- 404 with `{"error": "Client not found"}`. -/
  | notFound (error : String)
  /-- 200 with the client's name, email and booking rows. -/
  | ok (client : String) (email : String) (bookings : List BookingRow)
  /-- An uncaught exception escaped the handler. -/
  | crash
  deriving DecidableEq, Repr

/-- HTTP status of a `/bookings` outcome, `none` when the handler crashed. -/
def GetBookingsResult.statusCode : GetBookingsResult → Option Nat
  | .badRequest _ => some 400
  | .notFound _ => some 404
  | .ok _ _ _ => some 200
  | .crash => none

/-- `get_bookings` (`auth/routes.py` lines 71-100): email presence check,
client lookup (404 when absent), then the row loop inside a `try` that
catches only `UnknownTimeZoneError`. -/
def get_bookings (tzdb : TzDb) (st : Store) (email : Option String)
    (tz : String) : GetBookingsResult :=
  if ¬ truthyS email then
    .badRequest "email query parameter is required"
  else
    match findClientByEmail st (email.getD "") with
    | none => .notFound "Client not found"
    | some c =>
      match bookingRows tzdb st tz
          (st.bookings.filter (fun b => b.client_id = c.id)) with
      | .error .unknownTz => .badRequest ("Invalid timezone: " ++ tz)
      | .error .attrError => .crash
      | .ok rows => .ok c.name c.email rows

-- ------------------------------------------------------------------
-- Seeding (`database.py`)
-- ------------------------------------------------------------------

/-- `create_session`: convert the IST wall-clock strings (given here as wall
minutes) to UTC and insert a new `Session` row. -/
def create_session (st : Store) (class_id : Int) (startWall endWall : Int)
    (capacity : Int) : Store :=
  { st with
      sessions := st.sessions ++
        [⟨st.nextSessionId, class_id, ist_str_to_utc startWall,
          ist_str_to_utc endWall, capacity⟩],
      nextSessionId := st.nextSessionId + 1 }

/-- One iteration of `insert_default_classes`: insert the named class unless
a class with that name exists. -/
def defaultClassStep (st : Store) (name : String) : Store :=
  if (st.classes.find? (fun c => c.name = name)).isSome then st
  else
    { st with
        classes := st.classes ++ [⟨st.nextClassId, name, name ++ " class"⟩],
        nextClassId := st.nextClassId + 1 }

/-- `insert_default_classes`: Yoga, Zumba, HIIT, each inserted only if
missing. -/
def insert_default_classes (st : Store) : Store :=
  ["Yoga", "Zumba", "HIIT"].foldl defaultClassStep st

/-- One iteration of `insert_sample_clients`. -/
def sampleClientStep (st : Store) (c : String × String) : Store :=
  if (st.clients.find? (fun cl => cl.email = c.2)).isSome then st
  else
    { st with
        clients := st.clients ++ [⟨st.nextClientId, c.1, c.2⟩],
        nextClientId := st.nextClientId + 1 }

/-- `insert_sample_clients`: Alice and Bob, each inserted only if the email
is missing. -/
def insert_sample_clients (st : Store) : Store :=
  [("Alice", "alice@example.com"), ("Bob", "bob@example.com")].foldl
    sampleClientStep st

/-- IST wall minutes of `"{tomorrow} {h:m}"` where `d` is the day number of
tomorrow. -/
def wallOfDay (d : Int) (h m : Int) : Int := d * 1440 + h * 60 + m

/-- One inner iteration of `insert_sample_sessions`: for the time `(h, m)`,
the end string is one hour later rendered with `strftime("%H:%M")` on the
same date, and the session is created only if no session with the same
`start_time_utc` exists anywhere. -/
def sampleTimeStep (d : Int) (clsId : Int) (st : Store) (t : Int × Int) :
    Store :=
  if (st.sessions.find? (fun s =>
      s.start_time_utc = ist_str_to_utc (wallOfDay d t.1 t.2))).isSome then st
  else create_session st clsId (wallOfDay d t.1 t.2)
    (d * 1440 + (t.1 * 60 + t.2 + 60) % 1440) 10

/-- One outer iteration of `insert_sample_sessions`: look the class up by
name once, skip it entirely when missing, else create its sessions. -/
def sampleClassStep (d : Int) (st : Store)
    (spec : String × List (Int × Int)) : Store :=
  match st.classes.find? (fun c => c.name = spec.1) with
  | none => st
  | some cls => spec.2.foldl (sampleTimeStep d cls.id) st

/-- The literal `class_specs` dict, in insertion order, times as
`(hour, minute)`. -/
def class_specs : List (String × List (Int × Int)) :=
  [("Yoga", [(7, 0), (18, 0)]), ("Zumba", [(8, 0)]), ("HIIT", [(9, 30)])]

/-- `insert_sample_sessions`, parameterized by the day number `d` of
"tomorrow" in IST. -/
def insert_sample_sessions (d : Int) (st : Store) : Store :=
  class_specs.foldl (sampleClassStep d) st

/-- `seed_all`: classes, then demo clients, then sample sessions. -/
def seed_all (d : Int) (st : Store) : Store :=
  insert_sample_sessions d (insert_sample_clients (insert_default_classes st))

-- ------------------------------------------------------------------
-- Concrete stores used to evaluate the theorems on closed inputs
-- ------------------------------------------------------------------

/-- A store whose single session (capacity 1) is already full: Alice holds
the one booking. -/
def wStore : Store :=
  ⟨[⟨1, "Alice", "alice@example.com"⟩],
   [⟨1, "Yoga", "Yoga class"⟩],
   [⟨1, 1, 90, 150, 1⟩],
   [⟨1, 1, 1⟩], 2, 2, 2, 2⟩

/-- The seeding operations only ever append rows to the three tables they
touch. -/
structure Grows (st' st : Store) : Prop where
  classes : ∃ k, st'.classes = st.classes ++ k
  clients : ∃ k, st'.clients = st.clients ++ k
  sessions : ∃ k, st'.sessions = st.sessions ++ k

/-- A store with a capacity-2 session holding one booking by Alice, and a
second client Bob with no bookings. -/
def wStore2 : Store :=
  ⟨[⟨1, "Alice", "alice@example.com"⟩, ⟨2, "Bob", "bob@example.com"⟩],
   [⟨1, "Yoga", "Yoga class"⟩],
   [⟨1, 1, 90, 150, 2⟩],
   [⟨1, 1, 1⟩], 3, 2, 2, 2⟩

-- ------------------------------------------------------------------
-- Helper lemmas about `book_session`
-- ------------------------------------------------------------------

/-- Every run of `book_session` either leaves the store untouched or, when
all admission checks pass, appends exactly one booking for the looked-up
client and session. -/
theorem book_session_store_cases (st : Store) (cn ce : Option String)
    (sidO : Option Int) :
    (book_session st cn ce sidO).2 = st ∨
    ∃ s c, findSessionById st (sidO.getD 0) = some s ∧
      s.id = sidO.getD 0 ∧
      0 < spots_left st s ∧
      findClientByEmail st (ce.getD "") = some c ∧
      (st.bookings.any
        (fun b => b.client_id = c.id ∧ b.session_id = sidO.getD 0)) = false ∧
      (book_session st cn ce sidO).2 =
        { st with
            bookings := st.bookings ++
              [⟨st.nextBookingId, c.id, sidO.getD 0⟩],
            nextBookingId := st.nextBookingId + 1 } := by
  unfold book_session
  split
  · exact Or.inl rfl
  · split
    · exact Or.inl rfl
    · rename_i s hs
      split
      · exact Or.inl rfl
      · rename_i hsp
        split
        · exact Or.inl rfl
        · rename_i c hc
          split
          · exact Or.inl rfl
          · rename_i hdup
            refine Or.inr ⟨s, c, hs, ?_, by omega, hc, ?_, rfl⟩
            · have := List.find?_some hs
              simpa using this
            · simpa using hdup

/-- `book_session` never modifies the sessions table. -/
theorem book_session_sessions (st : Store) (cn ce : Option String)
    (sidO : Option Int) :
    (book_session st cn ce sidO).2.sessions = st.sessions := by
  rcases book_session_store_cases st cn ce sidO with h | ⟨s, c, _, _, _, _, _, h⟩ <;>
    rw [h]

/-- Appending one booking raises a session's booking count by one when the
new row targets that session, and leaves it alone otherwise. -/
theorem booked_count_append (l : List Booking) (b : Booking) (sid : Int) :
    ((l ++ [b]).filter (fun x => x.session_id = sid)).length =
      (l.filter (fun x => x.session_id = sid)).length +
        (if b.session_id = sid then 1 else 0) := by
  by_cases h : b.session_id = sid <;> simp [List.filter_append, h]

/-- In a store whose session ids are pairwise distinct (the primary key),
two stored sessions with the same id are the same row. -/
theorem session_eq_of_id_eq (st : Store)
    (hids : (st.sessions.map (fun s => s.id)).Nodup)
    {s1 s2 : Session} (h1 : s1 ∈ st.sessions) (h2 : s2 ∈ st.sessions)
    (h : s1.id = s2.id) : s1 = s2 :=
  List.inj_on_of_nodup_map hids h1 h2 h

/-- Capacity preservation: if no session is overbooked, it stays that way
after any `/book` request. -/
theorem capOk_book_preserved (st : Store) (cn ce : Option String)
    (sidO : Option Int)
    (hids : (st.sessions.map (fun s => s.id)).Nodup)
    (h : ∀ s ∈ st.sessions, (booked_count st s.id : Int) ≤ s.capacity) :
    ∀ s ∈ (book_session st cn ce sidO).2.sessions,
      (booked_count (book_session st cn ce sidO).2 s.id : Int) ≤ s.capacity := by
  intro s hs
  rw [book_session_sessions] at hs
  rcases book_session_store_cases st cn ce sidO with
    heq | ⟨s0, c, hfind, hsid, hsp, _, _, heq⟩
  · rw [heq]; exact h s hs
  · rw [heq]
    have hrw : booked_count
        { st with
            bookings := st.bookings ++
              [⟨st.nextBookingId, c.id, sidO.getD 0⟩],
            nextBookingId := st.nextBookingId + 1 } s.id =
        booked_count st s.id +
          (if (sidO.getD 0) = s.id then 1 else 0) := by
      unfold booked_count
      exact booked_count_append st.bookings _ s.id
    rw [hrw]
    by_cases hid : sidO.getD 0 = s.id
    · have hs0mem : s0 ∈ st.sessions := by
        have := List.mem_of_find?_eq_some hfind
        simpa [findSessionById] using this
      have : s0 = s := session_eq_of_id_eq st hids hs0mem hs (by omega)
      subst this
      unfold spots_left at hsp
      simp [hid]
      omega
    · simp [hid]
      exact h s hs

/-- Branch lemma: some required field is falsy. -/
theorem book_session_missing (st : Store) (cn ce : Option String)
    (sidO : Option Int)
    (h : ¬ (truthyS cn ∧ truthyS ce ∧ truthyI sidO)) :
    book_session st cn ce sidO =
      (.badRequest "client_name and client_email and session_id required", st) := by
  unfold book_session
  rw [if_pos h]

/-- Branch lemma: no session row has the requested id. -/
theorem book_session_no_session (st : Store) (cn ce : Option String)
    (sidO : Option Int)
    (ht : truthyS cn ∧ truthyS ce ∧ truthyI sidO)
    (h : findSessionById st (sidO.getD 0) = none) :
    book_session st cn ce sidO =
      (.failure "Booking failed – session full or already booked", st) := by
  unfold book_session
  rw [if_neg (by simpa using ht), h]

/-- Branch lemma: the session exists but has no spots left. -/
theorem book_session_full (st : Store) (cn ce : Option String)
    (sidO : Option Int) (s : Session)
    (ht : truthyS cn ∧ truthyS ce ∧ truthyI sidO)
    (hfind : findSessionById st (sidO.getD 0) = some s)
    (h : spots_left st s ≤ 0) :
    book_session st cn ce sidO =
      (.failure "Booking failed – session full or already booked", st) := by
  unfold book_session
  rw [if_neg (by simpa using ht), hfind]
  dsimp only
  rw [if_pos h]

/-- Branch lemma: admissible session but no client row has the email; the
handler dereferences `None` and the `AttributeError` escapes. -/
theorem book_session_no_client (st : Store) (cn ce : Option String)
    (sidO : Option Int) (s : Session)
    (ht : truthyS cn ∧ truthyS ce ∧ truthyI sidO)
    (hfind : findSessionById st (sidO.getD 0) = some s)
    (hsp : 0 < spots_left st s)
    (hc : findClientByEmail st (ce.getD "") = none) :
    book_session st cn ce sidO = (.crash, st) := by
  unfold book_session
  rw [if_neg (by simpa using ht), hfind]
  dsimp only
  rw [if_neg (by omega), hc]

/-- Branch lemma: the unique constraint fires at commit; rollback. -/
theorem book_session_dup (st : Store) (cn ce : Option String)
    (sidO : Option Int) (s : Session) (c : Client)
    (ht : truthyS cn ∧ truthyS ce ∧ truthyI sidO)
    (hfind : findSessionById st (sidO.getD 0) = some s)
    (hsp : 0 < spots_left st s)
    (hc : findClientByEmail st (ce.getD "") = some c)
    (hdup : st.bookings.any
      (fun b => b.client_id = c.id ∧ b.session_id = sidO.getD 0) = true) :
    book_session st cn ce sidO =
      (.failure "Booking failed – session full or already booked", st) := by
  unfold book_session
  rw [if_neg (by simpa using ht), hfind]
  dsimp only
  rw [if_neg (by omega), hc]
  dsimp only
  rw [if_pos hdup]

/-- Branch lemma: all checks pass; the booking is persisted. -/
theorem book_session_ok (st : Store) (cn ce : Option String)
    (sidO : Option Int) (s : Session) (c : Client)
    (ht : truthyS cn ∧ truthyS ce ∧ truthyI sidO)
    (hfind : findSessionById st (sidO.getD 0) = some s)
    (hsp : 0 < spots_left st s)
    (hc : findClientByEmail st (ce.getD "") = some c)
    (hdup : st.bookings.any
      (fun b => b.client_id = c.id ∧ b.session_id = sidO.getD 0) = false) :
    book_session st cn ce sidO =
      (.success "Booking successful",
       { st with
          bookings := st.bookings ++ [⟨st.nextBookingId, c.id, sidO.getD 0⟩],
          nextBookingId := st.nextBookingId + 1 }) := by
  unfold book_session
  rw [if_neg (by simpa using ht), hfind]
  dsimp only
  rw [if_neg (by omega), hc]
  dsimp only
  rw [if_neg (by rw [hdup]; exact Bool.false_ne_true)]

-- ------------------------------------------------------------------
-- Claims
-- ------------------------------------------------------------------

/-- C1: for every session with capacity C, any sequence of booking attempts
stores at most C bookings for that session: the invariant
`booked_count <= capacity` is preserved by every `book_session` call, and
once `booked_count = capacity` the next attempt returns the 400 failure
response and stores nothing. -/
theorem bookingCapacityInvariant (st : Store) (cn ce : Option String)
    (sidO : Option Int)
    (hids : (st.sessions.map (fun s => s.id)).Nodup) :
    ((∀ s ∈ st.sessions, (booked_count st s.id : Int) ≤ s.capacity) →
      ∀ s ∈ (book_session st cn ce sidO).2.sessions,
        (booked_count (book_session st cn ce sidO).2 s.id : Int) ≤ s.capacity) ∧
    (∀ s, findSessionById st (sidO.getD 0) = some s →
      truthyS cn → truthyS ce → truthyI sidO →
      (booked_count st s.id : Int) = s.capacity →
      (book_session st cn ce sidO).1 =
          .failure "Booking failed – session full or already booked" ∧
        ((book_session st cn ce sidO).1).statusCode = some 400 ∧
        (book_session st cn ce sidO).2 = st) := by
  constructor
  · exact fun h => capOk_book_preserved st cn ce sidO hids h
  · intro s hfind h1 h2 h3 hcap
    have hsp : spots_left st s ≤ 0 := by unfold spots_left; omega
    unfold book_session
    rw [if_neg (by simp [h1, h2, h3]), hfind]
    dsimp only
    rw [if_pos hsp]
    exact ⟨rfl, rfl, rfl⟩

/-- C1 witness: on `wStore` (capacity 1, already holding 1 booking) the
next attempt fails with the 400 message and changes nothing, and the
capacity invariant still holds afterwards. -/
theorem bookingCapacityInvariant_witness :
    (∀ s ∈ (book_session wStore (some "Bob") (some "bob@example.com")
        (some 1)).2.sessions,
      (booked_count (book_session wStore (some "Bob") (some "bob@example.com")
          (some 1)).2 s.id : Int) ≤ s.capacity) ∧
    (book_session wStore (some "Bob") (some "bob@example.com") (some 1)).1 =
      .failure "Booking failed – session full or already booked" ∧
    (book_session wStore (some "Bob") (some "bob@example.com") (some 1)).2 =
      wStore := by
  have h := bookingCapacityInvariant wStore (some "Bob")
    (some "bob@example.com") (some 1) (by decide)
  have h2 := h.2 ⟨1, 1, 90, 150, 1⟩ (by decide) (by decide) (by decide)
    (by decide) (by decide)
  exact ⟨h.1 (by decide), h2.1, h2.2.2⟩

/-- C2: at most one stored booking per `(client_id, session_id)` pair is
preserved by every `/book` request, and a repeated attempt for a pair that
already has a booking never succeeds and stores nothing. -/
theorem bookingPairUnique (st : Store) (cn ce : Option String)
    (sidO : Option Int) :
    (∀ cid sid,
      (st.bookings.filter
        (fun b => b.client_id = cid ∧ b.session_id = sid)).length ≤ 1 →
      ((book_session st cn ce sidO).2.bookings.filter
        (fun b => b.client_id = cid ∧ b.session_id = sid)).length ≤ 1) ∧
    (∀ c b0, findClientByEmail st (ce.getD "") = some c →
      b0 ∈ st.bookings → b0.client_id = c.id → b0.session_id = sidO.getD 0 →
      ((book_session st cn ce sidO).1).statusCode ≠ some 200 ∧
      (book_session st cn ce sidO).2 = st) := by
  constructor
  · intro cid sid hle
    rcases book_session_store_cases st cn ce sidO with
      heq | ⟨s, c, hfind, hsid, hsp, hc, hdup, heq⟩
    · rw [heq]; exact hle
    · rw [heq]
      by_cases hpair : c.id = cid ∧ sidO.getD 0 = sid
      · have hnil : st.bookings.filter
            (fun b => b.client_id = cid ∧ b.session_id = sid) = [] := by
          rw [List.filter_eq_nil_iff]
          intro b hb
          simp only [List.any_eq_false] at hdup
          have := hdup b hb
          simp only [decide_eq_true_eq] at this ⊢
          rcases hpair with ⟨h1, h2⟩
          omega
        rw [List.filter_append, hnil, List.nil_append]
        exact le_trans (List.length_filter_le _ _) (by simp)
      · have hone : ([(⟨st.nextBookingId, c.id, sidO.getD 0⟩ : Booking)].filter
            (fun b => b.client_id = cid ∧ b.session_id = sid)) = [] := by
          rw [List.filter_eq_nil_iff]
          intro b hb
          rw [List.mem_singleton] at hb
          subst hb
          simp only [decide_eq_true_eq]
          exact fun h => hpair h
        rw [List.filter_append, hone, List.append_nil]
        exact hle
  · intro c b0 hc hb0 hcid hsid
    by_cases ht : truthyS cn ∧ truthyS ce ∧ truthyI sidO
    · cases hfind : findSessionById st (sidO.getD 0) with
      | none =>
        rw [book_session_no_session st cn ce sidO ht hfind]
        exact ⟨by simp [BookResult.statusCode], rfl⟩
      | some s =>
        by_cases hsp : spots_left st s ≤ 0
        · rw [book_session_full st cn ce sidO s ht hfind hsp]
          exact ⟨by simp [BookResult.statusCode], rfl⟩
        · have hdup : st.bookings.any
              (fun b => b.client_id = c.id ∧ b.session_id = sidO.getD 0) = true := by
            rw [List.any_eq_true]
            exact ⟨b0, hb0, by simp [hcid, hsid]⟩
          rw [book_session_dup st cn ce sidO s c ht hfind (by omega) hc hdup]
          exact ⟨by simp [BookResult.statusCode], rfl⟩
    · rw [book_session_missing st cn ce sidO ht]
      exact ⟨by simp [BookResult.statusCode], rfl⟩

/-- C2 witness: on `wStore2`, Alice attempting to book session 1 again is
rejected without change, and the pair `(1, 1)` still has at most one
booking. -/
theorem bookingPairUnique_witness :
    (((book_session wStore2 (some "Alice") (some "alice@example.com")
        (some 1)).2.bookings.filter
      (fun b => b.client_id = 1 ∧ b.session_id = 1)).length ≤ 1) ∧
    ((book_session wStore2 (some "Alice") (some "alice@example.com")
        (some 1)).1).statusCode ≠ some 200 ∧
    (book_session wStore2 (some "Alice") (some "alice@example.com")
        (some 1)).2 = wStore2 := by
  have h := bookingPairUnique wStore2 (some "Alice") (some "alice@example.com")
    (some 1)
  have hb := h.2 ⟨1, "Alice", "alice@example.com"⟩ ⟨1, 1, 1⟩ (by decide)
    (by decide) (by decide) (by decide)
  exact ⟨h.1 1 1 (by decide), hb.1, hb.2⟩

/-- C4: when persisting the booking fails (the `uq_client_session`
constraint fires at commit), the attempt is rolled back — the store is
exactly as before — and the caller gets the merged 400 failure message. -/
theorem bookingRollbackAtomic (st : Store) (cn ce : Option String)
    (sidO : Option Int) (s : Session) (c : Client)
    (ht : truthyS cn ∧ truthyS ce ∧ truthyI sidO)
    (hfind : findSessionById st (sidO.getD 0) = some s)
    (hsp : 0 < spots_left st s)
    (hc : findClientByEmail st (ce.getD "") = some c)
    (hdup : st.bookings.any
      (fun b => b.client_id = c.id ∧ b.session_id = sidO.getD 0) = true) :
    book_session st cn ce sidO =
      (.failure "Booking failed – session full or already booked", st) ∧
    ((book_session st cn ce sidO).1).statusCode = some 400 := by
  have h := book_session_dup st cn ce sidO s c ht hfind hsp hc hdup
  exact ⟨h, by rw [h]; rfl⟩

/-- C4 witness: Alice re-booking session 1 of `wStore2` (capacity 2, one
spot free) passes the capacity check, fails at commit on the unique
constraint, and the store is unchanged with a 400 response. -/
theorem bookingRollbackAtomic_witness :
    book_session wStore2 (some "Alice") (some "alice@example.com") (some 1) =
      (.failure "Booking failed – session full or already booked", wStore2) ∧
    ((book_session wStore2 (some "Alice") (some "alice@example.com")
        (some 1)).1).statusCode = some 400 :=
  bookingRollbackAtomic wStore2 (some "Alice") (some "alice@example.com")
    (some 1) ⟨1, 1, 90, 150, 2⟩ ⟨1, "Alice", "alice@example.com"⟩
    (by decide) (by decide) (by decide) (by decide) (by decide)

/-- C5: with all three fields present, `/book` answers the merged 400
failure message and stores nothing whenever the session is absent or has no
spots left, and answers 200 "Booking successful" when the session is
admissible and persistence succeeds. -/
theorem bookEndpointResponses (st : Store) (cn ce : Option String)
    (sidO : Option Int)
    (ht : truthyS cn ∧ truthyS ce ∧ truthyI sidO) :
    ((findSessionById st (sidO.getD 0) = none ∨
      (∃ s, findSessionById st (sidO.getD 0) = some s ∧ spots_left st s ≤ 0)) →
      book_session st cn ce sidO =
        (.failure "Booking failed – session full or already booked", st) ∧
      ((book_session st cn ce sidO).1).statusCode = some 400) ∧
    (∀ s c, findSessionById st (sidO.getD 0) = some s → 0 < spots_left st s →
      findClientByEmail st (ce.getD "") = some c →
      st.bookings.any
        (fun b => b.client_id = c.id ∧ b.session_id = sidO.getD 0) = false →
      (book_session st cn ce sidO).1 = .success "Booking successful" ∧
      ((book_session st cn ce sidO).1).statusCode = some 200) := by
  constructor
  · intro h
    rcases h with h | ⟨s, hfind, hsp⟩
    · have := book_session_no_session st cn ce sidO ht h
      exact ⟨this, by rw [this]; rfl⟩
    · have := book_session_full st cn ce sidO s ht hfind hsp
      exact ⟨this, by rw [this]; rfl⟩
  · intro s c hfind hsp hc hdup
    have := book_session_ok st cn ce sidO s c ht hfind hsp hc hdup
    rw [this]
    exact ⟨rfl, rfl⟩

/-- C5 witness: on `wStore2`, booking the missing session 99 fails with the
merged message and Bob's booking of session 1 succeeds with 200. -/
theorem bookEndpointResponses_witness :
    (book_session wStore2 (some "Bob") (some "bob@example.com") (some 99) =
      (.failure "Booking failed – session full or already booked", wStore2)) ∧
    (book_session wStore2 (some "Bob") (some "bob@example.com") (some 1)).1 =
      .success "Booking successful" := by
  have h99 := (bookEndpointResponses wStore2 (some "Bob")
    (some "bob@example.com") (some 99) (by decide)).1 (Or.inl (by decide))
  have h1 := (bookEndpointResponses wStore2 (some "Bob")
    (some "bob@example.com") (some 1) (by decide)).2
    ⟨1, 1, 90, 150, 2⟩ ⟨2, "Bob", "bob@example.com"⟩
    (by decide) (by decide) (by decide) (by decide)
  exact ⟨h99.1, h1.1⟩

/-- C10: when the three fields are present and the session is admissible
but no client row has the given email, the handler dereferences `None`: the
`AttributeError` escapes uncaught, so no structured response (no status
code) is produced and nothing is stored. -/
theorem bookMissingClientCrash (st : Store) (cn ce : Option String)
    (sidO : Option Int) (s : Session)
    (ht : truthyS cn ∧ truthyS ce ∧ truthyI sidO)
    (hfind : findSessionById st (sidO.getD 0) = some s)
    (hsp : 0 < spots_left st s)
    (hc : findClientByEmail st (ce.getD "") = none) :
    book_session st cn ce sidO = (.crash, st) ∧
    ((book_session st cn ce sidO).1).statusCode = none := by
  have h := book_session_no_client st cn ce sidO s ht hfind hsp hc
  exact ⟨h, by rw [h]; rfl⟩

/-- `runBooks` never modifies the sessions table. -/
theorem runBooks_sessions (reqs : List BookReq) : ∀ st : Store,
    (runBooks st reqs).sessions = st.sessions := by
  induction reqs with
  | nil => intro st; rfl
  | cons r rs ih =>
    intro st
    show (runBooks _ rs).sessions = st.sessions
    rw [ih, book_session_sessions]

/-- Non-negative spots-left is the capacity bound, in `Int`. -/
theorem spots_nonneg_iff (st : Store) (s : Session) :
    0 ≤ spots_left st s ↔ (booked_count st s.id : Int) ≤ s.capacity := by
  unfold spots_left
  omega

/-- C3: `spots_left` computes capacity minus the number of stored bookings
for the session, and it stays non-negative across any sequence of `/book`
requests when it was non-negative to start with. -/
theorem spotsLeftCorrect (st : Store) (reqs : List BookReq)
    (hids : (st.sessions.map (fun s => s.id)).Nodup)
    (h0 : ∀ s ∈ st.sessions, 0 ≤ spots_left st s) :
    (∀ (st' : Store) (s : Session), spots_left st' s =
      s.capacity - (st'.bookings.countP (fun b => b.session_id = s.id) : Int)) ∧
    (∀ s ∈ (runBooks st reqs).sessions, 0 ≤ spots_left (runBooks st reqs) s) := by
  constructor
  · intro st' s
    unfold spots_left booked_count
    rw [List.countP_eq_length_filter]
  · induction reqs generalizing st with
    | nil => exact h0
    | cons r rs ih =>
      show ∀ s ∈ (runBooks (book_session st r.client_name r.client_email
        r.session_id).2 rs).sessions, _
      apply ih
      · rw [book_session_sessions]; exact hids
      · intro s hs
        rw [spots_nonneg_iff]
        refine capOk_book_preserved st r.client_name r.client_email
          r.session_id hids ?_ s hs
        intro s' hs'
        rw [← spots_nonneg_iff]
        exact h0 s' hs'

/-- C3 witness: after Bob books session 1 on `wStore2`, no session has a
negative spots-left, and the defining equation holds on `wStore2`. -/
theorem spotsLeftCorrect_witness :
    (spots_left wStore2 ⟨1, 1, 90, 150, 2⟩ =
      (2 : Int) - (wStore2.bookings.countP
        (fun b => b.session_id = (1 : Int)) : Int)) ∧
    (∀ s ∈ (runBooks wStore2
        [⟨some "Bob", some "bob@example.com", some 1⟩]).sessions,
      0 ≤ spots_left
        (runBooks wStore2 [⟨some "Bob", some "bob@example.com", some 1⟩]) s) := by
  have h := spotsLeftCorrect wStore2
    [⟨some "Bob", some "bob@example.com", some 1⟩] (by decide) (by decide)
  exact ⟨h.1 wStore2 ⟨1, 1, 90, 150, 2⟩, h.2⟩

/-- C7: converting a stored UTC instant to any zone keeps the instant, so
converting back to UTC returns the original aware value exactly; at the
wall-clock level, the IST string round trip through `ist_str_to_utc`
recovers the stored instant. -/
theorem timezoneRoundTrip (t : Int) (z : TzInfo) :
    astimezone (astimezone (utcStored t) z) utcTz = utcStored t ∧
    (astimezone (utcStored t) z).instant = t ∧
    ist_str_to_utc ((astimezone (utcStored t) istTz).wall) = t := by
  refine ⟨rfl, rfl, ?_⟩
  show t + 330 - 330 = t
  omega

/-- An unknown zone makes every row conversion of `/classes` raise. -/
theorem classRowOf_err (tzdb : TzDb) (st : Store) (tz : String)
    (c : FitnessClass) (s : Session) (htz : tzdb tz = none) :
    classRowOf tzdb st tz c s = .error tz := by
  unfold classRowOf start_time_local
  rw [htz]
  rfl

/-- With an unknown zone, one session in the class aborts its whole row
block. -/
theorem classRowsOfSessions_cons_err (tzdb : TzDb) (st : Store) (tz : String)
    (c : FitnessClass) (s : Session) (rest : List Session)
    (htz : tzdb tz = none) :
    classRowsOfSessions tzdb st tz c (s :: rest) = .error tz := by
  unfold classRowsOfSessions
  rw [classRowOf_err tzdb st tz c s htz]
  rfl

/-- With an unknown zone, any class list containing a class with at least
one session makes the whole listing computation fail. -/
theorem classRowsOfClasses_err (tzdb : TzDb) (st : Store) (tz : String)
    (htz : tzdb tz = none) :
    ∀ cls : List FitnessClass,
      (∃ c ∈ cls, ∃ s ∈ st.sessions, s.class_id = c.id) →
      classRowsOfClasses tzdb st tz cls = .error tz := by
  intro cls
  induction cls with
  | nil => rintro ⟨c, hc, -⟩; cases hc
  | cons c rest ih =>
    rintro ⟨c0, hc0, s0, hs0, hcid⟩
    unfold classRowsOfClasses
    cases hfil : st.sessions.filter (fun s => s.class_id = c.id) with
    | cons s' l' =>
      rw [classRowsOfSessions_cons_err tzdb st tz c s' l' htz]
      rfl
    | nil =>
      rcases List.mem_cons.1 hc0 with rfl | hmem
      · exfalso
        have : s0 ∈ st.sessions.filter (fun s => s.class_id = c0.id) := by
          rw [List.mem_filter]
          exact ⟨hs0, by simp [hcid]⟩
        rw [hfil] at this
        cases this
      · have hrest := ih ⟨c0, hmem, s0, hs0, hcid⟩
        show (classRowsOfSessions tzdb st tz c [] >>= _) = _
        show (Except.ok [] >>= _) = _
        show (classRowsOfClasses tzdb st tz rest >>= _) = _
        rw [hrest]
        rfl

/-- C6 counterexample: as stated, the claim is false on the code — with an
empty catalog the handler never performs a conversion, so even the
unrecognized zone `Mars/Nowhere` yields a 200 with an empty array instead
of the claimed 400. -/
theorem listClassesInvalidTz_cex :
    sampleTzdb "Mars/Nowhere" = none ∧
    list_classes sampleTzdb emptyStore "Mars/Nowhere" = .ok [] ∧
    (list_classes sampleTzdb emptyStore "Mars/Nowhere").statusCode = 200 :=
  ⟨rfl, rfl, rfl⟩

/-- C6 (amended): for every unrecognized timezone name, whenever the
catalog has at least one (class, session) row, `/classes` fails entirely
with a 400 whose error message names the bad zone, and no partial listing
is produced. -/
theorem listClassesInvalidTz (tzdb : TzDb) (st : Store) (tz : String)
    (htz : tzdb tz = none)
    (hrow : ∃ c ∈ st.classes, ∃ s ∈ st.sessions, s.class_id = c.id) :
    list_classes tzdb st tz = .invalidTz ("Invalid timezone: " ++ tz) ∧
    (list_classes tzdb st tz).statusCode = 400 := by
  have h := classRowsOfClasses_err tzdb st tz htz st.classes hrow
  unfold list_classes
  rw [h]
  exact ⟨rfl, rfl⟩

/-- C6 witness: on `wStore2` (one class with one session) the zone
`Mars/Nowhere` is unrecognized and the whole listing is the 400 error
naming it. -/
theorem listClassesInvalidTz_witness :
    list_classes sampleTzdb wStore2 "Mars/Nowhere" =
      .invalidTz ("Invalid timezone: " ++ "Mars/Nowhere") ∧
    (list_classes sampleTzdb wStore2 "Mars/Nowhere").statusCode = 400 :=
  listClassesInvalidTz sampleTzdb wStore2 "Mars/Nowhere" rfl
    ⟨⟨1, "Yoga", "Yoga class"⟩, by decide, ⟨1, 1, 90, 150, 2⟩, by decide,
     by decide⟩

/-- With a recognized zone and resolvable foreign keys, the `/bookings` row
loop returns one row per booking, carrying the session id, the class name
and the localized times. -/
theorem bookingRows_ok (tzdb : TzDb) (st : Store) (tz : String) (z : TzInfo)
    (htz : tzdb tz = some z) :
    ∀ l : List Booking,
      (∀ b ∈ l, ((st.sessions.find? (fun x => x.id = b.session_id)).bind
        (fun s => st.classes.find? (fun x => x.id = s.class_id))).isSome) →
      ∃ rows, bookingRows tzdb st tz l = .ok rows ∧
        List.Forall₂ (fun (b : Booking) (r : BookingRow) => ∃ s fc,
          st.sessions.find? (fun x => x.id = b.session_id) = some s ∧
          st.classes.find? (fun x => x.id = s.class_id) = some fc ∧
          r = ⟨s.id, fc.name,
               s.start_time_utc + z.offsetAt s.start_time_utc,
               s.end_time_utc + z.offsetAt s.end_time_utc⟩) l rows := by
  intro l
  induction l with
  | nil => exact fun _ => ⟨[], rfl, List.Forall₂.nil⟩
  | cons b rest ih =>
    intro h
    have hb := h b (List.mem_cons_self b rest)
    cases hsf : st.sessions.find? (fun x => x.id = b.session_id) with
    | none => rw [hsf] at hb; cases hb
    | some s =>
      rw [hsf] at hb
      cases hcf : st.classes.find? (fun x => x.id = s.class_id) with
      | none => simp [hcf] at hb
      | some fc =>
        obtain ⟨rows, hrows, hfa⟩ := ih (fun b' hb' => h b' (List.mem_cons_of_mem b hb'))
        refine ⟨⟨s.id, fc.name,
          s.start_time_utc + z.offsetAt s.start_time_utc,
          s.end_time_utc + z.offsetAt s.end_time_utc⟩ :: rows, ?_, ?_⟩
        · show (bookingRowOf tzdb st tz b >>= _) = _
          have hrow : bookingRowOf tzdb st tz b = .ok
              ⟨s.id, fc.name,
               s.start_time_utc + z.offsetAt s.start_time_utc,
               s.end_time_utc + z.offsetAt s.end_time_utc⟩ := by
            unfold bookingRowOf
            rw [hsf]
            dsimp only
            rw [hcf]
            dsimp only
            rw [htz]
            rfl
          rw [hrow]
          show (bookingRows tzdb st tz rest >>= _) = _
          rw [hrows]
          rfl
        · exact List.Forall₂.cons ⟨s, fc, hsf, hcf, rfl⟩ hfa

/-- C9: with a non-empty email, `/bookings` 404s exactly when no client has
that email; when the client exists, the zone resolves, and the bookings'
foreign keys resolve, it returns 200 with the client's rows: one per owned
booking, with session id, class name, and start/end localized to the
requested zone. -/
theorem getBookingsSpec (tzdb : TzDb) (st : Store) (e : String) (tz : String)
    (he : e ≠ "") :
    ((findClientByEmail st e = none) ↔
      get_bookings tzdb st (some e) tz = .notFound "Client not found") ∧
    ((GetBookingsResult.notFound "Client not found").statusCode = some 404) ∧
    (∀ c z, findClientByEmail st e = some c → tzdb tz = some z →
      (∀ b ∈ st.bookings.filter (fun b => b.client_id = c.id),
        ((st.sessions.find? (fun x => x.id = b.session_id)).bind
          (fun s => st.classes.find? (fun x => x.id = s.class_id))).isSome) →
      ∃ rows, get_bookings tzdb st (some e) tz = .ok c.name c.email rows ∧
        List.Forall₂ (fun (b : Booking) (r : BookingRow) => ∃ s fc,
          st.sessions.find? (fun x => x.id = b.session_id) = some s ∧
          st.classes.find? (fun x => x.id = s.class_id) = some fc ∧
          r = ⟨s.id, fc.name,
               s.start_time_utc + z.offsetAt s.start_time_utc,
               s.end_time_utc + z.offsetAt s.end_time_utc⟩)
          (st.bookings.filter (fun b => b.client_id = c.id)) rows) := by
  have htr : ¬¬ (truthyS (some e) = true) := by simp [truthyS, he]
  refine ⟨⟨?_, ?_⟩, rfl, ?_⟩
  · intro hnone
    unfold get_bookings
    rw [if_neg htr]
    have h' : findClientByEmail st ((some e).getD "") = none := hnone
    rw [h']
  · intro hres
    cases hfc : findClientByEmail st e with
    | none => rfl
    | some c =>
      exfalso
      unfold get_bookings at hres
      rw [if_neg htr] at hres
      have h' : findClientByEmail st ((some e).getD "") = some c := hfc
      rw [h'] at hres
      revert hres
      cases hrows : bookingRows tzdb st tz
          (st.bookings.filter (fun b => b.client_id = c.id)) with
      | ok rows => simp [hrows]
      | error err => cases err <;> simp [hrows]
  · intro c z hfc htz hwf
    obtain ⟨rows, hrows, hfa⟩ := bookingRows_ok tzdb st tz z htz
      (st.bookings.filter (fun b => b.client_id = c.id)) hwf
    refine ⟨rows, ?_, hfa⟩
    unfold get_bookings
    rw [if_neg htr]
    have h' : findClientByEmail st ((some e).getD "") = some c := hfc
    rw [h']
    dsimp only
    rw [hrows]

/-- C9 witness: an unknown email on `wStore2` 404s, and Alice's lookup in
UTC returns her single booking's row data. -/
theorem getBookingsSpec_witness :
    ((findClientByEmail wStore2 "zoe@example.com" = none) ↔
      get_bookings sampleTzdb wStore2 (some "zoe@example.com") "UTC" =
        .notFound "Client not found") ∧
    (∃ rows, get_bookings sampleTzdb wStore2 (some "alice@example.com")
        "UTC" = .ok "Alice" "alice@example.com" rows ∧
      List.Forall₂ (fun (b : Booking) (r : BookingRow) => ∃ s fc,
        wStore2.sessions.find? (fun x => x.id = b.session_id) = some s ∧
        wStore2.classes.find? (fun x => x.id = s.class_id) = some fc ∧
        r = ⟨s.id, fc.name,
             s.start_time_utc + utcTz.offsetAt s.start_time_utc,
             s.end_time_utc + utcTz.offsetAt s.end_time_utc⟩)
        (wStore2.bookings.filter (fun b => b.client_id =
          (⟨1, "Alice", "alice@example.com"⟩ : Client).id)) rows) := by
  constructor
  · exact (getBookingsSpec sampleTzdb wStore2 "zoe@example.com" "UTC"
      (by decide)).1
  · exact (getBookingsSpec sampleTzdb wStore2 "alice@example.com" "UTC"
      (by decide)).2.2 ⟨1, "Alice", "alice@example.com"⟩ utcTz (by decide)
      rfl (by decide)

/-- C10 witness: a ghost email on `wStore2` with session 1 admissible makes
the handler crash and store nothing. -/
theorem bookMissingClientCrash_witness :
    book_session wStore2 (some "Ghost") (some "ghost@example.com")
      (some 1) = (.crash, wStore2) ∧
    ((book_session wStore2 (some "Ghost") (some "ghost@example.com")
        (some 1)).1).statusCode = none :=
  bookMissingClientCrash wStore2 (some "Ghost") (some "ghost@example.com")
    (some 1) ⟨1, 1, 90, 150, 2⟩ (by decide) (by decide) (by decide)
    (by decide)

-- ------------------------------------------------------------------
-- Seeding lemmas (towards C8)
-- ------------------------------------------------------------------

/-- A store grows from itself. -/
theorem grows_self (st : Store) : Grows st st :=
  ⟨⟨[], by simp⟩, ⟨[], by simp⟩, ⟨[], by simp⟩⟩

/-- Growth composes. -/
theorem grows_trans {st1 st2 st3 : Store} (h21 : Grows st2 st1)
    (h32 : Grows st3 st2) : Grows st3 st1 := by
  obtain ⟨⟨kc, hkc⟩, ⟨kl, hkl⟩, ⟨ks, hks⟩⟩ := h21
  obtain ⟨⟨kc', hkc'⟩, ⟨kl', hkl'⟩, ⟨ks', hks'⟩⟩ := h32
  exact ⟨⟨kc ++ kc', by rw [hkc', hkc, List.append_assoc]⟩,
         ⟨kl ++ kl', by rw [hkl', hkl, List.append_assoc]⟩,
         ⟨ks ++ ks', by rw [hks', hks, List.append_assoc]⟩⟩

/-- A successful `find?` stays successful after appending rows. -/
theorem find?_isSome_mono {α : Type} (p : α → Bool) {l k : List α}
    (h : (l.find? p).isSome) : ((l ++ k).find? p).isSome := by
  rw [List.find?_isSome] at h ⊢
  obtain ⟨x, hx, hp⟩ := h
  exact ⟨x, by simp [hx], hp⟩

/-- Generic: a fold of growth-only steps is growth-only. -/
theorem foldl_grows {β : Type} (f : Store → β → Store)
    (h : ∀ st b, Grows (f st b) st) :
    ∀ (l : List β) (st : Store), Grows (l.foldl f st) st := by
  intro l
  induction l with
  | nil => exact fun st => grows_self st
  | cons b bs ih => exact fun st => grows_trans (h st b) (ih (f st b))

/-- Generic: a projection that every step preserves is preserved by the
fold. -/
theorem foldl_preserves {β γ : Type} (g : Store → γ) (f : Store → β → Store)
    (h : ∀ st b, g (f st b) = g st) :
    ∀ (l : List β) (st : Store), g (l.foldl f st) = g st := by
  intro l
  induction l with
  | nil => exact fun st => rfl
  | cons b bs ih => exact fun st => (ih (f st b)).trans (h st b)

/-- Generic: a fold whose every step fixes `st` returns `st`. -/
theorem foldl_fixed {β : Type} (f : Store → β → Store) (st : Store) :
    ∀ l : List β, (∀ b ∈ l, f st b = st) → l.foldl f st = st := by
  intro l
  induction l with
  | nil => exact fun _ => rfl
  | cons b bs ih =>
    intro h
    show bs.foldl f (f st b) = st
    rw [h b (List.mem_cons_self b bs)]
    exact ih fun b' hb' => h b' (List.mem_cons_of_mem b hb')

theorem defaultClassStep_grows (st : Store) (n : String) :
    Grows (defaultClassStep st n) st := by
  unfold defaultClassStep
  split
  · exact grows_self st
  · exact ⟨⟨_, rfl⟩, ⟨[], by simp⟩, ⟨[], by simp⟩⟩

theorem sampleClientStep_grows (st : Store) (c : String × String) :
    Grows (sampleClientStep st c) st := by
  unfold sampleClientStep
  split
  · exact grows_self st
  · exact ⟨⟨[], by simp⟩, ⟨_, rfl⟩, ⟨[], by simp⟩⟩

theorem create_session_grows (st : Store) (cid sw ew cap : Int) :
    Grows (create_session st cid sw ew cap) st :=
  ⟨⟨[], by simp [create_session]⟩, ⟨[], by simp [create_session]⟩, ⟨_, rfl⟩⟩

theorem sampleTimeStep_grows (d cid : Int) (st : Store) (t : Int × Int) :
    Grows (sampleTimeStep d cid st t) st := by
  unfold sampleTimeStep
  split
  · exact grows_self st
  · exact create_session_grows st cid _ _ 10

theorem sampleClassStep_grows (d : Int) (st : Store)
    (spec : String × List (Int × Int)) :
    Grows (sampleClassStep d st spec) st := by
  unfold sampleClassStep
  split
  · exact grows_self st
  · exact foldl_grows _ (fun st' t => sampleTimeStep_grows d _ st' t) spec.2 st

theorem insert_default_classes_grows (st : Store) :
    Grows (insert_default_classes st) st :=
  foldl_grows _ defaultClassStep_grows _ st

theorem insert_sample_clients_grows (st : Store) :
    Grows (insert_sample_clients st) st :=
  foldl_grows _ sampleClientStep_grows _ st

theorem insert_sample_sessions_grows (d : Int) (st : Store) :
    Grows (insert_sample_sessions d st) st :=
  foldl_grows _ (sampleClassStep_grows d) _ st

/-- Presence of a class name survives growth. -/
theorem hasClassName_mono {st' st : Store} (h : Grows st' st) (n : String)
    (hn : (st.classes.find? (fun c => c.name = n)).isSome) :
    (st'.classes.find? (fun c => c.name = n)).isSome := by
  obtain ⟨k, hk⟩ := h.classes
  rw [hk]
  exact find?_isSome_mono _ hn

/-- Presence of a client email survives growth. -/
theorem hasEmail_mono {st' st : Store} (h : Grows st' st) (e : String)
    (he : (st.clients.find? (fun cl => cl.email = e)).isSome) :
    (st'.clients.find? (fun cl => cl.email = e)).isSome := by
  obtain ⟨k, hk⟩ := h.clients
  rw [hk]
  exact find?_isSome_mono _ he

/-- Presence of a session start instant survives growth. -/
theorem hasStart_mono {st' st : Store} (h : Grows st' st) (u : Int)
    (hu : (st.sessions.find? (fun s => s.start_time_utc = u)).isSome) :
    (st'.sessions.find? (fun s => s.start_time_utc = u)).isSome := by
  obtain ⟨k, hk⟩ := h.sessions
  rw [hk]
  exact find?_isSome_mono _ hu

/-- After its step runs, the default class name is present. -/
theorem defaultClassStep_estab (st : Store) (n : String) :
    ((defaultClassStep st n).classes.find? (fun c => c.name = n)).isSome := by
  unfold defaultClassStep
  split
  · rename_i h; exact h
  · rw [List.find?_isSome]
    exact ⟨⟨st.nextClassId, n, n ++ " class"⟩, by simp, by simp⟩

/-- A present class name makes its step a no-op. -/
theorem defaultClassStep_idem (st : Store) (n : String)
    (h : (st.classes.find? (fun c => c.name = n)).isSome) :
    defaultClassStep st n = st := by
  unfold defaultClassStep
  rw [if_pos h]

/-- After its step runs, the demo client's email is present. -/
theorem sampleClientStep_estab (st : Store) (c : String × String) :
    ((sampleClientStep st c).clients.find? (fun cl => cl.email = c.2)).isSome := by
  unfold sampleClientStep
  split
  · rename_i h; exact h
  · rw [List.find?_isSome]
    exact ⟨⟨st.nextClientId, c.1, c.2⟩, by simp, by simp⟩

/-- A present email makes its step a no-op. -/
theorem sampleClientStep_idem (st : Store) (c : String × String)
    (h : (st.clients.find? (fun cl => cl.email = c.2)).isSome) :
    sampleClientStep st c = st := by
  unfold sampleClientStep
  rw [if_pos h]

/-- `insert_default_classes` makes all three default names present. -/
theorem insert_default_classes_estab (st : Store) :
    ((insert_default_classes st).classes.find?
      (fun c => c.name = "Yoga")).isSome ∧
    ((insert_default_classes st).classes.find?
      (fun c => c.name = "Zumba")).isSome ∧
    ((insert_default_classes st).classes.find?
      (fun c => c.name = "HIIT")).isSome := by
  show ((defaultClassStep (defaultClassStep (defaultClassStep st "Yoga")
    "Zumba") "HIIT").classes.find? _).isSome ∧ _ ∧ _
  refine ⟨?_, ?_, ?_⟩
  · exact hasClassName_mono
      (grows_trans (defaultClassStep_grows _ "Zumba")
        (defaultClassStep_grows _ "HIIT")) "Yoga"
      (defaultClassStep_estab st "Yoga")
  · exact hasClassName_mono (defaultClassStep_grows _ "HIIT") "Zumba"
      (defaultClassStep_estab _ "Zumba")
  · exact defaultClassStep_estab _ "HIIT"

/-- With all three default names present, `insert_default_classes` is a
no-op. -/
theorem insert_default_classes_idem (st : Store)
    (h1 : (st.classes.find? (fun c => c.name = "Yoga")).isSome)
    (h2 : (st.classes.find? (fun c => c.name = "Zumba")).isSome)
    (h3 : (st.classes.find? (fun c => c.name = "HIIT")).isSome) :
    insert_default_classes st = st := by
  show defaultClassStep (defaultClassStep (defaultClassStep st "Yoga")
    "Zumba") "HIIT" = st
  rw [defaultClassStep_idem st "Yoga" h1, defaultClassStep_idem st "Zumba" h2,
    defaultClassStep_idem st "HIIT" h3]

/-- `insert_sample_clients` makes both demo emails present. -/
theorem insert_sample_clients_estab (st : Store) :
    ((insert_sample_clients st).clients.find?
      (fun cl => cl.email = "alice@example.com")).isSome ∧
    ((insert_sample_clients st).clients.find?
      (fun cl => cl.email = "bob@example.com")).isSome := by
  show ((sampleClientStep (sampleClientStep st ("Alice", "alice@example.com"))
    ("Bob", "bob@example.com")).clients.find? _).isSome ∧ _
  refine ⟨?_, ?_⟩
  · exact hasEmail_mono (sampleClientStep_grows _ ("Bob", "bob@example.com"))
      "alice@example.com" (sampleClientStep_estab st ("Alice", "alice@example.com"))
  · exact sampleClientStep_estab _ ("Bob", "bob@example.com")

/-- With both demo emails present, `insert_sample_clients` is a no-op. -/
theorem insert_sample_clients_idem (st : Store)
    (h1 : (st.clients.find? (fun cl => cl.email = "alice@example.com")).isSome)
    (h2 : (st.clients.find? (fun cl => cl.email = "bob@example.com")).isSome) :
    insert_sample_clients st = st := by
  show sampleClientStep (sampleClientStep st ("Alice", "alice@example.com"))
    ("Bob", "bob@example.com") = st
  rw [sampleClientStep_idem st ("Alice", "alice@example.com") h1,
    sampleClientStep_idem st ("Bob", "bob@example.com") h2]

/-- After its step runs, a session with the step's start instant exists. -/
theorem sampleTimeStep_estab (d cid : Int) (st : Store) (t : Int × Int) :
    ((sampleTimeStep d cid st t).sessions.find? (fun s =>
      s.start_time_utc = ist_str_to_utc (wallOfDay d t.1 t.2))).isSome := by
  unfold sampleTimeStep
  split
  · rename_i h; exact h
  · unfold create_session
    rw [List.find?_isSome]
    refine ⟨⟨st.nextSessionId, cid, ist_str_to_utc (wallOfDay d t.1 t.2),
      ist_str_to_utc (d * 1440 + (t.1 * 60 + t.2 + 60) % 1440), 10⟩,
      by simp, by simp⟩

/-- A present start instant makes the time step a no-op. -/
theorem sampleTimeStep_idem (d cid : Int) (st : Store) (t : Int × Int)
    (h : (st.sessions.find? (fun s =>
      s.start_time_utc = ist_str_to_utc (wallOfDay d t.1 t.2))).isSome) :
    sampleTimeStep d cid st t = st := by
  unfold sampleTimeStep
  rw [if_pos h]

/-- Folding time steps establishes every listed start instant. -/
theorem foldl_timeStep_estab (d cid : Int) :
    ∀ (l : List (Int × Int)) (st : Store) (t : Int × Int), t ∈ l →
      ((l.foldl (sampleTimeStep d cid) st).sessions.find? (fun s =>
        s.start_time_utc = ist_str_to_utc (wallOfDay d t.1 t.2))).isSome := by
  intro l
  induction l with
  | nil => intro st t h; cases h
  | cons a l ih =>
    intro st t ht
    rcases List.mem_cons.1 ht with rfl | hmem
    · exact hasStart_mono
        (foldl_grows _ (fun st' t' => sampleTimeStep_grows d cid st' t') l _) _
        (sampleTimeStep_estab d cid st t)
    · exact ih _ t hmem

/-- A class step establishes every listed start instant of its spec,
provided the class name is present. -/
theorem sampleClassStep_estab (d : Int) (st : Store)
    (spec : String × List (Int × Int))
    (hcls : (st.classes.find? (fun c => c.name = spec.1)).isSome) :
    ∀ t ∈ spec.2, ((sampleClassStep d st spec).sessions.find? (fun s =>
      s.start_time_utc = ist_str_to_utc (wallOfDay d t.1 t.2))).isSome := by
  intro t ht
  unfold sampleClassStep
  cases hfc : st.classes.find? (fun c => c.name = spec.1) with
  | none => rw [hfc] at hcls; cases hcls
  | some cls => exact foldl_timeStep_estab d cls.id spec.2 st t ht

/-- A class step is a no-op once every listed start instant is present. -/
theorem sampleClassStep_idem (d : Int) (st : Store)
    (spec : String × List (Int × Int))
    (h : ∀ t ∈ spec.2, (st.sessions.find? (fun s =>
      s.start_time_utc = ist_str_to_utc (wallOfDay d t.1 t.2))).isSome) :
    sampleClassStep d st spec = st := by
  unfold sampleClassStep
  cases hfc : st.classes.find? (fun c => c.name = spec.1) with
  | none => rfl
  | some cls =>
    exact foldl_fixed _ st spec.2
      (fun t ht => sampleTimeStep_idem d cls.id st t (h t ht))

/-- `insert_sample_sessions` establishes every listed start instant when
all three class names are present. -/
theorem insert_sample_sessions_estab (d : Int) (st : Store)
    (h1 : (st.classes.find? (fun c => c.name = "Yoga")).isSome)
    (h2 : (st.classes.find? (fun c => c.name = "Zumba")).isSome)
    (h3 : (st.classes.find? (fun c => c.name = "HIIT")).isSome) :
    ∀ spec ∈ class_specs, ∀ t ∈ spec.2,
      ((insert_sample_sessions d st).sessions.find? (fun s =>
        s.start_time_utc = ist_str_to_utc (wallOfDay d t.1 t.2))).isSome := by
  intro spec hspec t ht
  have hshow : insert_sample_sessions d st =
      sampleClassStep d (sampleClassStep d (sampleClassStep d st
        ("Yoga", [(7, 0), (18, 0)])) ("Zumba", [(8, 0)]))
        ("HIIT", [(9, 30)]) := rfl
  rw [hshow]
  have gy := sampleClassStep_grows d st ("Yoga", [(7, 0), (18, 0)])
  have gz := sampleClassStep_grows d
    (sampleClassStep d st ("Yoga", [(7, 0), (18, 0)])) ("Zumba", [(8, 0)])
  have gh := sampleClassStep_grows d
    (sampleClassStep d (sampleClassStep d st ("Yoga", [(7, 0), (18, 0)]))
      ("Zumba", [(8, 0)])) ("HIIT", [(9, 30)])
  rcases show spec = ("Yoga", [(7, 0), (18, 0)]) ∨
      spec = ("Zumba", [(8, 0)]) ∨ spec = ("HIIT", [(9, 30)]) by
    simpa [class_specs] using hspec with rfl | rfl | rfl
  · exact hasStart_mono (grows_trans gz gh) _
      (sampleClassStep_estab d st _ h1 t ht)
  · exact hasStart_mono gh _
      (sampleClassStep_estab d _ _ (hasClassName_mono gy "Zumba" h2) t ht)
  · exact sampleClassStep_estab d _ _
      (hasClassName_mono (grows_trans gy gz) "HIIT" h3) t ht

/-- `insert_sample_sessions` is a no-op once every listed start instant is
present. -/
theorem insert_sample_sessions_idem (d : Int) (st : Store)
    (h : ∀ spec ∈ class_specs, ∀ t ∈ spec.2,
      (st.sessions.find? (fun s =>
        s.start_time_utc = ist_str_to_utc (wallOfDay d t.1 t.2))).isSome) :
    insert_sample_sessions d st = st := by
  have hy := sampleClassStep_idem d st ("Yoga", [(7, 0), (18, 0)])
    (h ("Yoga", [(7, 0), (18, 0)]) (by decide))
  have hz := sampleClassStep_idem d st ("Zumba", [(8, 0)])
    (h ("Zumba", [(8, 0)]) (by decide))
  have hh := sampleClassStep_idem d st ("HIIT", [(9, 30)])
    (h ("HIIT", [(9, 30)]) (by decide))
  show sampleClassStep d (sampleClassStep d (sampleClassStep d st
    ("Yoga", [(7, 0), (18, 0)])) ("Zumba", [(8, 0)])) ("HIIT", [(9, 30)]) = st
  rw [hy, hz, hh]

theorem sampleTimeStep_classes (d cid : Int) (st : Store) (t : Int × Int) :
    (sampleTimeStep d cid st t).classes = st.classes := by
  unfold sampleTimeStep
  split
  · rfl
  · rfl

theorem sampleTimeStep_clients (d cid : Int) (st : Store) (t : Int × Int) :
    (sampleTimeStep d cid st t).clients = st.clients := by
  unfold sampleTimeStep
  split
  · rfl
  · rfl

theorem sampleClassStep_classes (d : Int) (st : Store)
    (spec : String × List (Int × Int)) :
    (sampleClassStep d st spec).classes = st.classes := by
  unfold sampleClassStep
  split
  · rfl
  · exact foldl_preserves Store.classes _
      (fun st' t => sampleTimeStep_classes d _ st' t) spec.2 st

theorem sampleClassStep_clients (d : Int) (st : Store)
    (spec : String × List (Int × Int)) :
    (sampleClassStep d st spec).clients = st.clients := by
  unfold sampleClassStep
  split
  · rfl
  · exact foldl_preserves Store.clients _
      (fun st' t => sampleTimeStep_clients d _ st' t) spec.2 st

theorem insert_sample_sessions_classes (d : Int) (st : Store) :
    (insert_sample_sessions d st).classes = st.classes :=
  foldl_preserves Store.classes _ (sampleClassStep_classes d) class_specs st

theorem insert_sample_sessions_clients (d : Int) (st : Store) :
    (insert_sample_sessions d st).clients = st.clients :=
  foldl_preserves Store.clients _ (sampleClassStep_clients d) class_specs st

theorem sampleClientStep_classes (st : Store) (c : String × String) :
    (sampleClientStep st c).classes = st.classes := by
  unfold sampleClientStep
  split
  · rfl
  · rfl

theorem insert_sample_clients_classes (st : Store) :
    (insert_sample_clients st).classes = st.classes :=
  foldl_preserves Store.classes _ sampleClientStep_classes _ st

/-- C8: `seed_all` is idempotent — a second run with the same "tomorrow"
changes nothing — and from an empty store one run leaves exactly the three
default classes and the two demo clients. -/
theorem seedAllIdempotent (d : Int) (st : Store) :
    seed_all d (seed_all d st) = seed_all d st ∧
    (seed_all d emptyStore).classes.map (fun c => c.name) =
      ["Yoga", "Zumba", "HIIT"] ∧
    (seed_all d emptyStore).clients.map (fun c => c.email) =
      ["alice@example.com", "bob@example.com"] := by
  refine ⟨?_, ?_, ?_⟩
  · have hy : ((seed_all d st).classes.find? (fun c => c.name = "Yoga")).isSome := by
      unfold seed_all
      rw [insert_sample_sessions_classes, insert_sample_clients_classes]
      exact (insert_default_classes_estab st).1
    have hz : ((seed_all d st).classes.find? (fun c => c.name = "Zumba")).isSome := by
      unfold seed_all
      rw [insert_sample_sessions_classes, insert_sample_clients_classes]
      exact (insert_default_classes_estab st).2.1
    have hh : ((seed_all d st).classes.find? (fun c => c.name = "HIIT")).isSome := by
      unfold seed_all
      rw [insert_sample_sessions_classes, insert_sample_clients_classes]
      exact (insert_default_classes_estab st).2.2
    have hae : ((seed_all d st).clients.find?
        (fun cl => cl.email = "alice@example.com")).isSome := by
      unfold seed_all
      rw [insert_sample_sessions_clients]
      exact (insert_sample_clients_estab _).1
    have hbe : ((seed_all d st).clients.find?
        (fun cl => cl.email = "bob@example.com")).isSome := by
      unfold seed_all
      rw [insert_sample_sessions_clients]
      exact (insert_sample_clients_estab _).2
    have hst : ∀ spec ∈ class_specs, ∀ t ∈ spec.2,
        ((seed_all d st).sessions.find? (fun s =>
          s.start_time_utc = ist_str_to_utc (wallOfDay d t.1 t.2))).isSome := by
      intro spec hspec t ht
      unfold seed_all
      refine insert_sample_sessions_estab d _ ?_ ?_ ?_ spec hspec t ht
      · rw [insert_sample_clients_classes]
        exact (insert_default_classes_estab st).1
      · rw [insert_sample_clients_classes]
        exact (insert_default_classes_estab st).2.1
      · rw [insert_sample_clients_classes]
        exact (insert_default_classes_estab st).2.2
    have e1 : insert_default_classes (seed_all d st) = seed_all d st :=
      insert_default_classes_idem _ hy hz hh
    have e2 : insert_sample_clients (seed_all d st) = seed_all d st :=
      insert_sample_clients_idem _ hae hbe
    have e3 : insert_sample_sessions d (seed_all d st) = seed_all d st :=
      insert_sample_sessions_idem d _ hst
    calc seed_all d (seed_all d st)
        = insert_sample_sessions d (insert_sample_clients
            (insert_default_classes (seed_all d st))) := rfl
      _ = insert_sample_sessions d (insert_sample_clients (seed_all d st)) := by
            rw [e1]
      _ = insert_sample_sessions d (seed_all d st) := by rw [e2]
      _ = seed_all d st := e3
  · have h1 : (seed_all d emptyStore).classes =
        (insert_default_classes emptyStore).classes := by
      unfold seed_all
      rw [insert_sample_sessions_classes, insert_sample_clients_classes]
    rw [h1]
    rfl
  · have h2 : (seed_all d emptyStore).clients =
        (insert_sample_clients (insert_default_classes emptyStore)).clients := by
      unfold seed_all
      rw [insert_sample_sessions_clients]
    rw [h2]
    rfl
